import Mathlib

/-!
# Verification of the `yaml_update` document editor

Shallow embedding of `src/yaml_update/updater.py` (and the load/skip glue of
`src/yaml_update/__main__.py`).  YAML documents are modelled as a tree of
scalars, mappings and sequences; the Python functions `_detect_indentation`,
`_coerce_value`, `_resolve_key_path`, `update_keys`, `_walk_image_tags`,
`update_image_tags` and `diff_yaml` are translated into executable Lean
functions.  In-place mutation is modelled by explicit state passing: each
updating function returns the new document value together with its result.

Modelling conventions for Python built-ins used by the source:
* Python `int` is unbounded, modelled by `Int`.
* Python `float` values are modelled by exact rationals (`Rat`); the claims
  under verification never depend on IEEE-754 rounding, only on the
  parse-succeeds/parse-fails control flow of `float(...)`.
* Python whitespace stripping / lowercasing is modelled on char lists; the
  claims only exercise ASCII text.
* Exceptions are modelled by `Except PyErr`; `KeyError` carries the message
  string the source formats (for `dict[k]` lookups, Python's `KeyError(k)`
  displays as the repr `'k'`).
-/

namespace YamlUpdate

/-- A YAML document node, mirroring the runtime values `ruamel.yaml` hands to
`updater.py`: scalars (`str`, `int`, `float`, `bool`, `None`), `CommentedMap`
(ordered mapping; the key paths and image fields exercised by the claims all
use string keys, so keys are modelled as `String`) and `CommentedSeq`.
Side-band formatting data (comments, quote style) is irrelevant to every
modelled operation and is omitted; anchors/aliases (shared subtrees) are not
modelled. -/
inductive Yaml where
  | str (s : String)
  | int (n : Int)
  | float (q : Rat)
  | bool (b : Bool)
  | null
  | map (entries : List (String × Yaml))
  | seq (items : List Yaml)

/-- Python exception kinds reachable from the modelled code paths. -/
inductive PyErr where
  | keyError (msg : String)
  | indexError
  | typeError
  deriving DecidableEq, Repr

/-- Ordered lookup of a string key in a mapping's entry list
(`part in current` / `current[part]` on a `CommentedMap`). -/
def lookupStr (k : String) : List (String × Yaml) → Option Yaml
  | [] => none
  | (k', v) :: rest => if k' == k then some v else lookupStr k rest

/-- `d[k] = v` on a Python dict: replace the value of an existing key in
place, otherwise append the new key at the end. -/
def mapSet (es : List (String × Yaml)) (k : String) (v : Yaml) :
    List (String × Yaml) :=
  match es with
  | [] => [(k, v)]
  | (k', w) :: rest => if k' == k then (k', v) :: rest else (k', w) :: mapSet rest k v

mutual

/-- Python `==` on the runtime values of the model (`old_value != coerced` in
the source is its negation).  Booleans and numbers compare numerically
(`True == 1`, `5 == 5.0`), strings and `None` only to themselves, lists
elementwise, dicts by key set and per-key value equality. -/
def pyEq : Yaml → Yaml → Bool
  | .null, .null => true
  | .bool a, .bool b => a == b
  | .bool a, .int n => (if a then (1 : Int) else 0) == n
  | .bool a, .float q => (((if a then (1 : Int) else 0) : Int) : Rat) == q
  | .int m, .int n => m == n
  | .int m, .bool b => m == (if b then (1 : Int) else 0)
  | .int m, .float q => ((m : Int) : Rat) == q
  | .float p, .float q => p == q
  | .float p, .int n => p == ((n : Int) : Rat)
  | .float p, .bool b => p == (((if b then (1 : Int) else 0) : Int) : Rat)
  | .str a, .str b => a == b
  | .seq xs, .seq ys => pyEqList xs ys
  | .map es, .map fs => es.length == fs.length && pyEqEntries es fs
  | _, _ => false

/-- Elementwise Python `==` on lists (length mismatch is inequality). -/
def pyEqList : List Yaml → List Yaml → Bool
  | [], [] => true
  | x :: xs, y :: ys => pyEq x y && pyEqList xs ys
  | _, _ => false

/-- Every key of the first dict is present in the second with a `pyEq` value
(together with the length check this is Python's order-insensitive dict
equality). -/
def pyEqEntries : List (String × Yaml) → List (String × Yaml) → Bool
  | [], _ => true
  | (k, v) :: rest, fs =>
    (match lookupStr k fs with
     | some w => pyEq v w
     | none => false) && pyEqEntries rest fs

end

/-! ## Python text built-ins used by the source

All string manipulation is carried out on `List Char` (UTF-8 positions play
no role in any modelled operation), so that every definition evaluates by
kernel reduction. -/

/-- `str.lstrip()` with no argument: drop leading whitespace. -/
def pyLstrip (s : String) : String := String.mk (s.toList.dropWhile Char.isWhitespace)

/-- `str.strip()` with no argument: drop whitespace from both ends. -/
def pyStripStr (s : String) : String :=
  String.mk (((s.toList.dropWhile Char.isWhitespace).reverse.dropWhile
    Char.isWhitespace).reverse)

/-- `str.lower()` (the text in scope is ASCII). -/
def pyLower (s : String) : String := String.mk (s.toList.map Char.toLower)

/-- `str.startswith(pre)`. -/
def pyStartsWith (s pre : String) : Bool := pre.toList.isPrefixOf s.toList

/-- `str.endswith(suf)`. -/
def pyEndsWith (s suf : String) : Bool := suf.toList.isSuffixOf s.toList

/-- `c in s` for a single char. -/
def pyHasChar (s : String) (c : Char) : Bool := s.toList.contains c

/-- Split a char list at every occurrence of `sep` (Python
`str.split(sep)` for a one-char separator: always at least one group). -/
def charSplit (sep : Char) : List Char → List (List Char)
  | [] => [[]]
  | c :: rest =>
    if c == sep then [] :: charSplit sep rest
    else
      match charSplit sep rest with
      | g :: gs => (c :: g) :: gs
      | [] => [[c]]

/-- `"sep".join(parts)` / `str.join`. -/
def joinWith (sep : String) : List String → String
  | [] => ""
  | p :: ps => ps.foldl (fun acc q => acc ++ sep ++ q) p

/-- `str.splitlines()` for `\n`-separated text (the YAML files in scope use
Unix line endings; `\r` handling is not exercised): split on `\n`, with no
trailing empty line for text ending in `\n`. -/
def pySplitlines (s : String) : List String :=
  let parts := (charSplit '\n' s.toList).map String.mk
  match parts.getLast? with
  | some "" => parts.dropLast
  | _ => parts

/-- Substring test on char lists (Python `needle in hay` for strings);
the empty needle is contained in everything. -/
def listSubstr : List Char → List Char → Bool
  | n, [] => n.isEmpty
  | n, c :: rest => n.isPrefixOf (c :: rest) || listSubstr n rest

/-- Python `needle in hay` on strings: substring containment. -/
def pyInStr (needle hay : String) : Bool := listSubstr needle.toList hay.toList

/-- Numeric value of an ASCII digit. -/
def digitVal (c : Char) : Nat := c.toNat - 48

/-- Accumulate the remaining digits of a Python integer literal: digits with
single underscores allowed between digits only. -/
def pyDigitsGo (acc : Nat) : List Char → Option Nat
  | [] => some acc
  | '_' :: c :: rest => if c.isDigit then pyDigitsGo (acc * 10 + digitVal c) rest else none
  | c :: rest => if c.isDigit then pyDigitsGo (acc * 10 + digitVal c) rest else none

/-- A nonempty ASCII digit group as accepted by Python `int()` (underscores
between digits); `none` on anything else.  Unicode decimal digits, which
CPython would also accept, are not modelled (no claim exercises them). -/
def pyDigits : List Char → Option Nat
  | [] => none
  | c :: rest => if c.isDigit then pyDigitsGo (digitVal c) rest else none

/-- Like `pyDigitsGo` but also counting digits (for fractional scaling). -/
def pyDigitsCntGo (acc cnt : Nat) : List Char → Option (Nat × Nat)
  | [] => some (acc, cnt)
  | '_' :: c :: rest =>
    if c.isDigit then pyDigitsCntGo (acc * 10 + digitVal c) (cnt + 1) rest else none
  | c :: rest =>
    if c.isDigit then pyDigitsCntGo (acc * 10 + digitVal c) (cnt + 1) rest else none

/-- A nonempty digit group together with its digit count. -/
def pyDigitsCnt : List Char → Option (Nat × Nat)
  | [] => none
  | c :: rest => if c.isDigit then pyDigitsCntGo (digitVal c) 1 rest else none

/-- Optional leading sign: returns (negative?, remaining chars). -/
def pySign : List Char → Bool × List Char
  | '+' :: rest => (false, rest)
  | '-' :: rest => (true, rest)
  | cs => (false, cs)

/-- Python `int(s)`: surrounding whitespace stripped, optional sign, decimal
digits (underscores between digits); `none` models `ValueError`. -/
def pyParseInt (s : String) : Option Int :=
  let (neg, rest) := pySign (pyStripStr s).toList
  match pyDigits rest with
  | some n => some (if neg then -(n : Int) else (n : Int))
  | none => none

/-- Split a char list at the first char satisfying `p`; `none` when absent. -/
def splitOnChar (p : Char → Bool) : List Char → List Char × Option (List Char)
  | [] => ([], none)
  | c :: rest =>
    if p c then ([], some rest)
    else
      let (a, b) := splitOnChar p rest
      (c :: a, b)

/-- The mantissa of a Python float literal: `D`, `D.`, `D.D` or `.D` where
`D` is a digit group; at least one digit overall. -/
def pyFloatMantissa (ip : List Char) (fpOpt : Option (List Char)) : Option Rat :=
  match fpOpt with
  | none => (pyDigits ip).map (fun n => (n : Rat))
  | some fp =>
    if ip.isEmpty && fp.isEmpty then none
    else
      match (if ip.isEmpty then some 0 else pyDigits ip),
            (if fp.isEmpty then some (0, 0) else pyDigitsCnt fp) with
      | some i, some (f, k) => some ((i : Rat) + (f : Rat) / (10 : Rat) ^ k)
      | _, _ => none

/-- Python `float(s)` for finite decimal literals, with the value modelled as
an exact rational: optional sign, mantissa, optional `e`/`E` exponent.  The
special forms `inf`/`infinity`/`nan` are not modelled (no claim exercises
them, and they have no rational value); `none` models `ValueError`. -/
def pyParseFloat (s : String) : Option Rat :=
  let (neg, rest) := pySign (pyStripStr s).toList
  let (mant, expPart) := splitOnChar (fun c => c == 'e' || c == 'E') rest
  let (ip, fpOpt) := splitOnChar (fun c => c == '.') mant
  match pyFloatMantissa ip fpOpt with
  | none => none
  | some q =>
    match expPart with
    | none => some (if neg then -q else q)
    | some ecs =>
      let (eneg, ecs') := pySign ecs
      match pyDigits ecs' with
      | none => none
      | some e =>
        let scaled := if eneg then q / (10 : Rat) ^ e else q * (10 : Rat) ^ e
        some (if neg then -scaled else scaled)

/-- Python `str(...)` as used on `node["repository"]` / `node["name"]` in
`_walk_image_tags`.  Faithful for strings, ints, bools and `None`; the claims
only exercise string-valued `repository`/`name` fields, so the renderings of
floats and of `CommentedMap`/`CommentedSeq` (whose reprs belong to external
libraries) are left as distinguishable placeholder text. -/
def pyStr : Yaml → String
  | .str s => s
  | .int n => toString n
  | .bool b => if b then "True" else "False"
  | .null => "None"
  | .float _ => "<float repr not modelled>"
  | .map _ => "<mapping repr not modelled>"
  | .seq _ => "<sequence repr not modelled>"

/-! ## `_coerce_value` (updater.py lines 59-75) -/

/-- `_coerce_value(new_value, existing_value)`: coerce the textual new value
to the runtime type of the existing value.  The `isinstance` chain checks
`None`, then `bool` (a Python `bool` is an `int`, so it must come first),
then `int`, then `float`; anything else keeps the new value as a string. -/
def coerceValue (newValue : String) (existing : Yaml) : Yaml :=
  match existing with
  | .null => .str newValue
  | .bool _ =>
    let t := pyLower (pyStripStr newValue)
    .bool (t == "true" || t == "yes" || t == "1")
  | .int _ =>
    match pyParseInt newValue with
    | some n => .int n
    | none => .str newValue
  | .float _ =>
    match pyParseFloat newValue with
    | some q => .float q
    | none => .str newValue
  | _ => .str newValue

/-! ## `_detect_indentation` (updater.py lines 21-56) -/

/-- The body of the candidate filter in `_detect_indentation`'s outer loop:
a line that is nonempty after lstrip, is not a comment, not a sequence item,
and contains `:` yields its indent (`len(line) - len(stripped)`). -/
def keyLineCandidate (line : String) : Option Nat :=
  let stripped := pyLstrip line
  if stripped == "" || pyStartsWith stripped "#" || pyStartsWith stripped "-" then none
  else if pyHasChar stripped ':' then some (line.length - stripped.length)
  else none

/-- The inner `for j in range(i - 1, -1, -1)` walk of `_detect_indentation`:
scan upward from index `j`, skipping blank and comment lines; at the first
other line, if it is a key line (contains `:`, does not start with `-`) with
strictly smaller indent, return the indent delta; in every other case the
loop `break`s with no contribution. -/
def lookBack (lines : List String) (indent : Nat) : Nat → Option Nat
  | 0 =>
    match lines[0]? with
    | none => none
    | some prev =>
      let ps := pyLstrip prev
      if ps == "" || pyStartsWith ps "#" then none
      else if pyHasChar ps ':' && !pyStartsWith ps "-" then
        let pi := prev.length - ps.length
        if pi < indent then some (indent - pi) else none
      else none
  | j + 1 =>
    match lines[j + 1]? with
    | none => none
    | some prev =>
      let ps := pyLstrip prev
      if ps == "" || pyStartsWith ps "#" then lookBack lines indent j
      else if pyHasChar ps ':' && !pyStartsWith ps "-" then
        let pi := prev.length - ps.length
        if pi < indent then some (indent - pi) else none
      else none

/-- One iteration of `_detect_indentation`'s outer loop: the mapping-indent
contribution of line `i`, if any (`none` when the line is not a candidate key
line, when `i = 0`, or when the upward walk finds no shallower parent key as
its first non-blank, non-comment line). -/
def contribution (lines : List String) (i : Nat) : Option Nat :=
  match lines[i]? with
  | none => none
  | some line =>
    match keyLineCandidate line with
    | none => none
    | some indent =>
      match i with
      | 0 => none
      | j + 1 => lookBack lines indent j

/-- The outer loop of `_detect_indentation`: `mapping_indent` starts at 2 and
is overwritten by the contribution of every line that produces one. -/
def detectMappingIndent (lines : List String) : Nat :=
  (List.range lines.length).foldl (fun m i => (contribution lines i).getD m) 2

/-- `_detect_indentation(content)`: returns
`(mapping_indent, sequence_indent, offset)` with
`sequence_indent = mapping_indent + 2` and `offset = mapping_indent`. -/
def detectIndentation (content : String) : Nat × Nat × Nat :=
  let m := detectMappingIndent (pySplitlines content)
  (m, m + 2, m)

/-! ## `_resolve_key_path` and `update_keys` (updater.py lines 78-128)

The Python function returns an alias `(parent_container, final_key)` into the
mutable tree; assigning through the alias mutates the document.  The model
additionally records the route walked to the parent (mapping keys and
resolved absolute sequence indices), so that the assignment can be replayed
functionally by `setAt`. -/

/-- One resolved step of a key-path walk. -/
inductive PathStep where
  | key (k : String)
  | idx (j : Nat)
  deriving DecidableEq, Repr

/-- A change record `{key, old, new}` as appended to the `changes` list. -/
structure Change where
  key : String
  old : Yaml
  new : Yaml

/-- Message of the `KeyError` raised for a missing mapping key
(f-string at updater.py line 98:
`Key '{part}' not found in path '{key_path}'`); the concatenation is
grouped to expose the common `in path '…'` suffix. -/
def msgNotFound (part keyPath : String) : String :=
  "Key '" ++ part ++ "' not found " ++ ("in path '" ++ keyPath ++ "'")

/-- Message of the `KeyError` raised for a sequence segment that does not
parse as an integer (f-strings at updater.py lines 93 and 107:
`Expected integer index for list, got '{part}' in path '{key_path}'`). -/
def msgBadIndex (part keyPath : String) : String :=
  "Expected integer index for list, got '" ++ part ++ "' " ++
    ("in path '" ++ keyPath ++ "'")

/-- Python list index resolution: a negative index counts from the end;
`none` models `IndexError` (out of range). -/
def pyListIdx (len : Nat) (i : Int) : Option Nat :=
  let j : Int := if i < 0 then (len : Int) + i else i
  if 0 ≤ j ∧ j < (len : Int) then some j.toNat else none

/-- `items[i]` on a Python list, also returning the resolved absolute
position. -/
def pyListGet (items : List Yaml) (i : Int) : Except PyErr (Nat × Yaml) :=
  match pyListIdx items.length i with
  | some j =>
    match items[j]? with
    | some x => .ok (j, x)
    | none => .error .indexError
  | none => .error .indexError

/-- The `for part in parts[:-1]` walk of `_resolve_key_path`: follow each
segment from the current node, returning the route taken and the node
reached.  On a sequence the segment must satisfy `int(part)` (only
`ValueError` is caught, so any signed integer is accepted), and the indexing
itself can raise an uncaught `IndexError`; on a mapping a missing key raises
`KeyError` naming the path.  `part not in current` on a string scalar is
Python substring containment, raising the same `KeyError` when absent and
`TypeError` (string index) when present; `in` on the remaining scalar types
raises `TypeError`. -/
def walkParts (keyPath : String) : Yaml → List String → Except PyErr (List PathStep × Yaml)
  | cur, [] => .ok ([], cur)
  | cur, part :: rest =>
    match cur with
    | .seq items =>
      match pyParseInt part with
      | none => .error (.keyError (msgBadIndex part keyPath))
      | some i =>
        match pyListGet items i with
        | .error e => .error e
        | .ok (j, x) =>
          match walkParts keyPath x rest with
          | .error e => .error e
          | .ok (route, p) => .ok (.idx j :: route, p)
    | .map es =>
      match lookupStr part es with
      | none => .error (.keyError (msgNotFound part keyPath))
      | some v =>
        match walkParts keyPath v rest with
        | .error e => .error e
        | .ok (route, p) => .ok (.key part :: route, p)
    | .str s =>
      if pyInStr part s then .error .typeError
      else .error (.keyError (msgNotFound part keyPath))
    | _ => .error .typeError

/-- `key_path.split(".")`. -/
def splitPath (keyPath : String) : List String :=
  (charSplit '.' keyPath.toList).map String.mk

/-- `_resolve_key_path(data, key_path)`: walk all but the last segment, then
pair the reached container with the final key — `int(final)` when the
container is a sequence (raising the integer-index `KeyError` when that
parse fails), the raw string otherwise.  Presence of a final mapping key is
not checked here. -/
def resolveKeyPath (data : Yaml) (keyPath : String) :
    Except PyErr (List PathStep × Yaml × (String ⊕ Int)) :=
  let parts := splitPath keyPath
  match walkParts keyPath data parts.dropLast with
  | .error e => .error e
  | .ok (route, cur) =>
    let final := (parts.getLast?).getD ""
    match cur with
    | .seq _ =>
      match pyParseInt final with
      | some i => .ok (route, cur, .inr i)
      | none => .error (.keyError (msgBadIndex final keyPath))
    | _ => .ok (route, cur, .inl final)

/-- `parent[final_key]` in `update_keys`: reading through the resolved pair.
A missing mapping key raises a bare `KeyError` whose display is the
repr `'key'` (it does not mention the path); a sequence read can raise
`IndexError`; reading a scalar parent raises `TypeError`.  The mapping/int
and scalar/int combinations cannot be produced by `_resolve_key_path` and
are mapped to the exceptions Python's subscript would raise. -/
def readFinal : Yaml → String ⊕ Int → Except PyErr Yaml
  | .map es, .inl k =>
    match lookupStr k es with
    | some v => .ok v
    | none => .error (.keyError ("'" ++ k ++ "'"))
  | .map _, .inr i => .error (.keyError (toString i))
  | .seq items, .inr i =>
    match pyListGet items i with
    | .ok (_, x) => .ok x
    | .error e => .error e
  | .seq _, .inl _ => .error .typeError
  | _, _ => .error .typeError

/-- `parent[final_key] = coerced`: functional replay of the aliased
assignment on the parent container.  `update_keys` only assigns after
`parent[final_key]` was read successfully, so the key/index is present; the
unreachable failure branches leave the node unchanged. -/
def writeFinal : Yaml → String ⊕ Int → Yaml → Yaml
  | .map es, .inl k, v => .map (mapSet es k v)
  | .seq items, .inr i, v =>
    match pyListIdx items.length i with
    | some j => .seq (items.set j v)
    | none => .seq items
  | x, _, _ => x

/-- Replay an assignment through the route recorded by the resolution walk:
descend to the parent container and apply `writeFinal` there.  The route was
produced by walking `data` itself, so the mismatch branches are
unreachable. -/
def setAt : Yaml → List PathStep → String ⊕ Int → Yaml → Yaml
  | doc, [], fk, v => writeFinal doc fk v
  | .map es, .key k :: rest, fk, v =>
    match lookupStr k es with
    | some c => .map (mapSet es k (setAt c rest fk v))
    | none => .map es
  | .seq items, .idx j :: rest, fk, v =>
    match items[j]? with
    | some c => .seq (items.set j (setAt c rest fk v))
    | none => .seq items
  | doc, _ :: _, _, _ => doc

/-- One iteration of the `update_keys` loop on a `(key_path, new_value)`
pair: resolve, read the old value, coerce, and when `old_value != coerced`
assign and produce a change record. -/
def updateOnePair (doc : Yaml) (keyPath newValue : String) :
    Except PyErr (Yaml × Option Change) :=
  match resolveKeyPath doc keyPath with
  | .error e => .error e
  | .ok (route, parent, fk) =>
    match readFinal parent fk with
    | .error e => .error e
    | .ok old =>
      let coerced := coerceValue newValue old
      if pyEq old coerced then .ok (doc, none)
      else .ok (setAt doc route fk coerced, some ⟨keyPath, old, coerced⟩)

/-- The `for key_path, new_value in zip(keys, values)` loop.  The returned
pair is (document state when the loop stops, outcome): an uncaught exception
aborts the loop, keeps the document as mutated so far and loses the change
list, which models Python's raise out of `update_keys`. -/
def updateKeysGo : Yaml → List (String × String) → Yaml × Except PyErr (List Change)
  | doc, [] => (doc, .ok [])
  | doc, (k, v) :: rest =>
    match updateOnePair doc k v with
    | .error e => (doc, .error e)
    | .ok (doc', none) => updateKeysGo doc' rest
    | .ok (doc', some c) =>
      match updateKeysGo doc' rest with
      | (docF, .ok cs) => (docF, .ok (c :: cs))
      | (docF, .error e) => (docF, .error e)

/-- `update_keys(data, keys, values)`: zip truncates to the shorter list. -/
def updateKeys (doc : Yaml) (keys values : List String) :
    Yaml × Except PyErr (List Change) :=
  updateKeysGo doc (keys.zip values)

/-! ## `_walk_image_tags` / `update_image_tags` (updater.py lines 131-189) -/

/-- `f"{path}.{seg}" if path else seg` — the path builder used for mapping
children and for the recorded `.tag` / `.newTag` change paths. -/
def joinPath (path seg : String) : String :=
  if path == "" then seg else path ++ "." ++ seg

/-- The image-name match:
`repo_val.endswith(f"/{image_name}") or repo_val == image_name`. -/
def matchesImage (reprVal imageName : String) : Bool :=
  pyEndsWith reprVal ("/" ++ imageName) || reprVal == imageName

/-- One shape-pattern check of `_walk_image_tags` on a mapping node's
entries: when both `refKey` and `tagKey` are present and `str(node[refKey])`
matches the image name, coerce the new tag against the old one and, when
different, assign it and record a change at `path.tagKey`.  Instantiated
with (`"repository"`, `"tag"`) for the Helm shape and (`"name"`, `"newTag"`)
for the Kustomize shape. -/
def applyPattern (es : List (String × Yaml)) (refKey tagKey : String)
    (imageName newTag path : String) : List (String × Yaml) × List Change :=
  match lookupStr refKey es, lookupStr tagKey es with
  | some refV, some oldTag =>
    if matchesImage (pyStr refV) imageName then
      let coerced := coerceValue newTag oldTag
      if pyEq oldTag coerced then (es, [])
      else (mapSet es tagKey coerced, [⟨joinPath path tagKey, oldTag, coerced⟩])
    else (es, [])
  | _, _ => (es, [])

/-- `_walk_image_tags(node, image_name, new_tag, changes, path)`: depth-first
pre-order walk.  At a mapping node the Helm pattern is applied first, the
Kustomize pattern second (on the node as mutated by the first), then the walk
recurses into every child of the mutated node; sequence items recurse with
`f"{path}.{i}"`.  The in-place mutation is modelled by returning the new node
together with the changes appended at this subtree, in append order.

The `fuel` argument is a modelling device standing in for the recursion
depth: every recursive call descends one tree level, pattern application only
replaces `tag`/`newTag` values by scalar leaves and so never deepens the
tree, hence any fuel at least the tree height (the entry point passes
`sizeOf doc`, which always dominates the height) makes the `0` branch
unreachable. -/
def walkImageTagsF (imageName newTag : String) : Nat → Yaml → String → Yaml × List Change
  | 0, node, _ => (node, [])
  | fuel + 1, .map es, path =>
    let (es1, cs1) := applyPattern es "repository" "tag" imageName newTag path
    let (es2, cs2) := applyPattern es1 "name" "newTag" imageName newTag path
    let (es3, cs3) :=
      es2.foldr
        (fun e acc =>
          let (v', cs) := walkImageTagsF imageName newTag fuel e.2 (joinPath path e.1)
          ((e.1, v') :: acc.1, cs ++ acc.2))
        ([], [])
    (.map es3, cs1 ++ cs2 ++ cs3)
  | fuel + 1, .seq items, path =>
    let (items', cs) :=
      items.enum.foldr
        (fun e acc =>
          let (v', cs) := walkImageTagsF imageName newTag fuel e.2 (path ++ "." ++ toString e.1)
          (v' :: acc.1, cs ++ acc.2))
        ([], [])
    (.seq items', cs)
  | _ + 1, x, _ => (x, [])

mutual

/-- Node count of a document tree; it dominates the tree height and is used
as the walk fuel. -/
def yamlFuel : Yaml → Nat
  | .map es => yamlFuelEntries es + 1
  | .seq items => yamlFuelList items + 1
  | _ => 1

/-- Node count of a mapping's entries. -/
def yamlFuelEntries : List (String × Yaml) → Nat
  | [] => 0
  | (_, v) :: rest => yamlFuel v + yamlFuelEntries rest

/-- Node count of a sequence's items. -/
def yamlFuelList : List Yaml → Nat
  | [] => 0
  | v :: rest => yamlFuel v + yamlFuelList rest

end

/-- `update_image_tags(data, image_name, new_tag)`: walk the whole tree from
the root with an empty path, returning the mutated document and the changes
list. -/
def updateImageTags (doc : Yaml) (imageName newTag : String) : Yaml × List Change :=
  walkImageTagsF imageName newTag (yamlFuel doc) doc ""

/-! ## `load_yaml` and the skip check in `__main__.main` -/

/-- Python runtime values at the `__main__.main` / `load_yaml` boundary:
`None`, a document, a configured serializer, a string, or a 3-tuple. -/
inductive PyVal where
  | vNone
  | vDoc (d : Yaml)
  | vCfg (mapping sequence offset : Nat)
  | vStr (s : String)
  | vTuple3 (a b c : PyVal)

/-- `load_yaml(path)` (updater.py lines 192-209) at the value level.  The
ruamel parse result is passed in as `parsed` (`none` models ruamel returning
`None` for an empty or all-comment file; the parser itself is an external
library).  The function returns the tuple `(data, y, content)` where `y` is
the serializer configured with the detected indentation. -/
def loadYaml (parsed : Option Yaml) (content : String) : PyVal :=
  let cfg := detectIndentation content
  .vTuple3 (match parsed with | none => .vNone | some d => .vDoc d)
    (.vCfg cfg.1 cfg.2.1 cfg.2.2) (.vStr content)

/-- Python `x is None`. -/
def pyIsNone : PyVal → Bool
  | .vNone => true
  | _ => false

/-- The per-file skip check of `__main__.main` (lines 49-54):
`data = load_yaml(file_path)` followed by `if data is None: ... continue`. -/
def mainSkipsFile (parsed : Option Yaml) (content : String) : Bool :=
  pyIsNone (loadYaml parsed content)

/-! ## `difflib.unified_diff` and `diff_yaml` (updater.py lines 218-240)

`diff_yaml` serializes the document through the external ruamel serializer
and then post-processes the result with the Python stdlib `difflib`; the
serialization output is therefore a parameter (`newContent`), while the
stdlib diff machinery (`SequenceMatcher` without junk — the inputs in scope
are far below the 200-line autojunk threshold — `get_matching_blocks`,
`get_opcodes`, `get_grouped_opcodes`, `unified_diff` with `lineterm=""`) is
translated below. -/

/-- `b2j[elt]`: the ascending positions of `x` in `b`. -/
def indicesOf (x : String) (b : List String) : List Nat :=
  (b.enum.filter (fun e => e.2 == x)).map (fun e => e.1)

/-- Lookup in the `j2len` association list, defaulting to 0
(`j2len.get(j - 1, 0)`). -/
def alGet : List (Nat × Nat) → Nat → Nat
  | [], _ => 0
  | (k', v) :: rest, k => if k' == k then v else alGet rest k

/-- Inner loop of `SequenceMatcher.find_longest_match` over the positions of
`a[i]` in `b` (already restricted to `blo ≤ j < bhi`, which models the
`continue`/`break` pair on the ascending index list).  Python's
`j2len.get(j - 1, 0)` uses int keys, so at `j = 0` it looks up the key `-1`,
which is never present, and gets the default 0; the keys here are `Nat`, so
that case is written out explicitly. -/
def flmInner (j2len : List (Nat × Nat)) (i : Nat) :
    List Nat → List (Nat × Nat) → Nat × Nat × Nat → List (Nat × Nat) × (Nat × Nat × Nat)
  | [], newj2len, best => (newj2len, best)
  | j :: js, newj2len, best =>
    let k := (if j == 0 then 0 else alGet j2len (j - 1)) + 1
    let best' := if k > best.2.2 then (i + 1 - k, j + 1 - k, k) else best
    flmInner j2len i js ((j, k) :: newj2len) best'

/-- Outer loop of `find_longest_match` over `i in range(alo, ahi)`. -/
def flmOuter (a b : List String) (blo bhi : Nat) :
    List Nat → List (Nat × Nat) → Nat × Nat × Nat → Nat × Nat × Nat
  | [], _, best => best
  | i :: is, j2len, best =>
    let js := ((indicesOf ((a[i]?).getD "") b).filter
        (fun j => blo ≤ j)).takeWhile (fun j => j < bhi)
    let r := flmInner j2len i js [] best
    flmOuter a b blo bhi is r.1 r.2

/-- `find_longest_match(alo, ahi, blo, bhi)` with no junk elements: the pure
dynamic-programming core (the junk/popular extension loops are no-ops). -/
def findLongestMatch (a b : List String) (alo ahi blo bhi : Nat) : Nat × Nat × Nat :=
  flmOuter a b blo bhi (List.range' alo (ahi - alo)) [] (alo, blo, 0)

/-- The recursive decomposition of `get_matching_blocks`: the longest match
splits the region, and the sub-regions are processed recursively (the Python
queue-plus-sort formulation produces the same, already sorted, list).  The
fuel bounds the recursion depth; every recursive call strictly shrinks
`(ahi - alo) + (bhi - blo)`, so the entry fuel `a.length + b.length + 1`
makes the `0` branch unreachable. -/
def matchingBlocksGo (a b : List String) : Nat → Nat → Nat → Nat → Nat → List (Nat × Nat × Nat)
  | 0, _, _, _, _ => []
  | fuel + 1, alo, ahi, blo, bhi =>
    let m := findLongestMatch a b alo ahi blo bhi
    if m.2.2 = 0 then []
    else
      matchingBlocksGo a b fuel alo m.1 blo m.2.1 ++
        m :: matchingBlocksGo a b fuel (m.1 + m.2.2) ahi (m.2.1 + m.2.2) bhi

/-- The adjacent-block merge at the end of `get_matching_blocks`. -/
def mergeAdjGo (i1 j1 k1 : Nat) : List (Nat × Nat × Nat) → List (Nat × Nat × Nat)
  | [] => if k1 ≠ 0 then [(i1, j1, k1)] else []
  | (i2, j2, k2) :: rest =>
    if i1 + k1 == i2 && j1 + k1 == j2 then mergeAdjGo i1 j1 (k1 + k2) rest
    else if k1 ≠ 0 then (i1, j1, k1) :: mergeAdjGo i2 j2 k2 rest
    else mergeAdjGo i2 j2 k2 rest

/-- `get_matching_blocks()`: recursive decomposition, adjacent merge, and the
`(len(a), len(b), 0)` terminator. -/
def matchingBlocks (a b : List String) : List (Nat × Nat × Nat) :=
  mergeAdjGo 0 0 0
      (matchingBlocksGo a b (a.length + b.length + 1) 0 a.length 0 b.length) ++
    [(a.length, b.length, 0)]

/-- Opcode tags of `difflib`. -/
inductive OpTag where
  | replace
  | delete
  | insert
  | equal
  deriving DecidableEq, Repr

/-- An opcode `(tag, i1, i2, j1, j2)`. -/
abbrev Op := OpTag × Nat × Nat × Nat × Nat

/-- `get_opcodes()`: turn matching blocks into replace/delete/insert/equal
opcodes by walking a cursor over both sequences. -/
def opcodesGo (i j : Nat) : List (Nat × Nat × Nat) → List Op
  | [] => []
  | (ai, bj, size) :: rest =>
    let pre : List Op :=
      if i < ai ∧ j < bj then [(OpTag.replace, i, ai, j, bj)]
      else if i < ai then [(OpTag.delete, i, ai, j, bj)]
      else if j < bj then [(OpTag.insert, i, ai, j, bj)]
      else []
    let eq : List Op :=
      if size ≠ 0 then [(OpTag.equal, ai, ai + size, bj, bj + size)] else []
    pre ++ eq ++ opcodesGo (ai + size) (bj + size) rest

/-- `get_opcodes()` from the start of both sequences. -/
def getOpcodes (a b : List String) : List Op := opcodesGo 0 0 (matchingBlocks a b)

/-- `get_grouped_opcodes`: trim a leading equal opcode to `n` context
lines. -/
def adjustFirst (n : Nat) : List Op → List Op
  | (OpTag.equal, i1, i2, j1, j2) :: rest =>
    (OpTag.equal, max i1 (i2 - n), i2, max j1 (j2 - n), j2) :: rest
  | other => other

/-- `get_grouped_opcodes`: trim a trailing equal opcode to `n` context
lines. -/
def adjustLast (n : Nat) (codes : List Op) : List Op :=
  match codes.getLast? with
  | some (OpTag.equal, i1, i2, j1, j2) =>
    codes.dropLast ++ [(OpTag.equal, i1, min i2 (i1 + n), j1, min j2 (j1 + n))]
  | _ => codes

/-- The grouping loop of `get_grouped_opcodes`: split at equal opcodes wider
than `2 n`, and drop a final group that is a single equal opcode. -/
def groupGo (n : Nat) : List Op → List Op → List (List Op)
  | group, [] =>
    match group with
    | [] => []
    | [(OpTag.equal, _, _, _, _)] => []
    | g => [g]
  | group, (tag, i1, i2, j1, j2) :: rest =>
    if tag == OpTag.equal && i2 - i1 > n + n then
      (group ++ [(tag, i1, min i2 (i1 + n), j1, min j2 (j1 + n))]) ::
        groupGo n [(tag, max i1 (i2 - n), i2, max j1 (j2 - n), j2)] rest
    else groupGo n (group ++ [(tag, i1, i2, j1, j2)]) rest

/-- `get_grouped_opcodes(n)`. -/
def groupedOpcodes (a b : List String) (n : Nat) : List (List Op) :=
  let codes := getOpcodes a b
  let codes := if codes.isEmpty then [(OpTag.equal, 0, 1, 0, 1)] else codes
  groupGo n [] (adjustLast n (adjustFirst n codes))

/-- `difflib._format_range_unified(start, stop)`. -/
def formatRangeUnified (start stop : Nat) : String :=
  let beginning := start + 1
  let length := stop - start
  if length == 1 then toString beginning
  else
    let beginning := if length == 0 then beginning - 1 else beginning
    toString beginning ++ "," ++ toString length

/-- `xs[lo:hi]`. -/
def sliceLines (xs : List String) (lo hi : Nat) : List String :=
  (xs.drop lo).take (hi - lo)

/-- The per-opcode lines yielded by `unified_diff`. -/
def opLines (a b : List String) : Op → List String
  | (OpTag.equal, i1, i2, _, _) => (sliceLines a i1 i2).map (fun l => " " ++ l)
  | (OpTag.replace, i1, i2, j1, j2) =>
    (sliceLines a i1 i2).map (fun l => "-" ++ l) ++
      (sliceLines b j1 j2).map (fun l => "+" ++ l)
  | (OpTag.delete, i1, i2, _, _) => (sliceLines a i1 i2).map (fun l => "-" ++ l)
  | (OpTag.insert, _, _, j1, j2) => (sliceLines b j1 j2).map (fun l => "+" ++ l)

/-- The `@@ ... @@` hunk header plus body lines for one group. -/
def groupLines (a b : List String) (group : List Op) : List String :=
  match group.head?, group.getLast? with
  | some (_, fi1, _, fj1, _), some (_, _, li2, _, lj2) =>
    ("@@ -" ++ formatRangeUnified fi1 li2 ++ " +" ++ formatRangeUnified fj1 lj2 ++ " @@") ::
      (group.map (opLines a b)).flatten
  | _, _ => []

/-- `difflib.unified_diff(a, b, lineterm="", n=n)` with empty file names and
dates: the `--- ` / `+++ ` header lines are yielded before the first group
only. -/
def unifiedDiff (a b : List String) (n : Nat) : List String :=
  let groups := groupedOpcodes a b n
  if groups.isEmpty then []
  else "--- " :: "+++ " :: (groups.map (groupLines a b)).flatten

/-- `diff_yaml(path, original_content, data, yaml_instance)` with the
serialization of `data` passed in as `newContent`: return `""` when the
serialization equals the original, otherwise two `---`/`+++` header lines
carrying the file path followed by the `unified_diff` output with every line
starting with `---` or `+++` filtered out. -/
def diffYaml (path originalContent newContent : String) : String :=
  if originalContent == newContent then ""
  else
    let origLines := pySplitlines originalContent
    let newLines := pySplitlines newContent
    let body := (unifiedDiff origLines newLines 3).filter
      (fun g => !(pyStartsWith g "---" || pyStartsWith g "+++"))
    joinWith "\n" (("--- " ++ path) :: ("+++ " ++ path) :: body)

/-! ## The spec's description of indentation detection

A second definition, written from the spec's words rather than the source,
used to compare the specified behaviour ("from the first nested key
occurrence … walking upward to the nearest shallower-indented key") with the
implemented one. -/

/-- Modelled from the spec: walk upward from a key line of indent `indent`
to the *nearest shallower-indented key line*, skipping everything else, and
return the indent delta. -/
def specLookBack (lines : List String) (indent : Nat) : Nat → Option Nat
  | 0 =>
    match lines[0]? with
    | none => none
    | some l =>
      match keyLineCandidate l with
      | some pi => if pi < indent then some (indent - pi) else none
      | none => none
  | j + 1 =>
    match lines[j + 1]? with
    | none => none
    | some l =>
      match keyLineCandidate l with
      | some pi => if pi < indent then some (indent - pi) else specLookBack lines indent j
      | none => specLookBack lines indent j

/-- Modelled from the spec: the contribution of line `i` under the spec's
upward-walk rule. -/
def specContribution (lines : List String) (i : Nat) : Option Nat :=
  match lines[i]? with
  | none => none
  | some line =>
    match keyLineCandidate line with
    | none => none
    | some indent =>
      match i with
      | 0 => none
      | j + 1 => specLookBack lines indent j

/-- Modelled from the spec: the mapping indent taken from the *first* nested
key occurrence (default 2 when there is none). -/
def specDetectMappingIndent (lines : List String) : Nat :=
  ((List.range lines.length).filterMap (specContribution lines)).head?.getD 2

/-- Modelled from the spec: `(mapping, mapping + 2, mapping)` from the first
nested key occurrence. -/
def specDetectIndentation (content : String) : Nat × Nat × Nat :=
  let m := specDetectMappingIndent (pySplitlines content)
  (m, m + 2, m)

/-! ## Helper lemmas -/

/-- `zip` commutes with simultaneous `take`. -/
theorem zipTakeEq {α β : Type} :
    ∀ (xs : List α) (ys : List β) (n : Nat),
      (xs.take n).zip (ys.take n) = (xs.zip ys).take n
  | [], _, _ => by simp
  | _ :: _, [], _ => by simp
  | _ :: _, _ :: _, 0 => by simp
  | x :: xs, y :: ys, n + 1 => by
    simp [List.take_succ_cons, zipTakeEq xs ys n]

/-- A fold that overwrites its accumulator with every `some` contribution
ends at the last contribution (or at the initial value). -/
theorem foldlGetDEqGetLast {α β : Type} (f : α → Option β) :
    ∀ (l : List α) (init : β),
      l.foldl (fun m a => (f a).getD m) init = ((l.filterMap f).getLast?).getD init
  | [], _ => rfl
  | a :: l, init => by
    rw [List.foldl_cons, foldlGetDEqGetLast f l ((f a).getD init), List.filterMap_cons]
    cases h : f a with
    | none => simp
    | some b =>
      simp only [Option.getD_some]
      cases hl : l.filterMap f with
      | nil => simp
      | cons c cs =>
        cases hlast : (c :: cs).getLast? with
        | none => simp [List.getLast?_eq_none_iff] at hlast
        | some x => simp [List.getLast?_cons_cons, hlast]

/-- `joinWith` exposes its first element as a prefix. -/
theorem joinWithPre (sep : String) :
    ∀ (ps : List String) (p : String), ∃ t, joinWith sep (p :: ps) = p ++ t
  | [], p => ⟨"", by simp [joinWith]⟩
  | q :: qs, p => by
    obtain ⟨t, ht⟩ := joinWithPre sep qs (p ++ sep ++ q)
    refine ⟨sep ++ q ++ t, ?_⟩
    simp only [joinWith, List.foldl_cons] at ht ⊢
    rw [ht]
    simp [String.append_assoc]

/-- An `updateKeysGo` run over a list whose prefix succeeds and whose next
pair raises stops at the raise, keeping the document produced by the
prefix. -/
theorem updateKeysGoAppendError :
    ∀ (pre : List (String × String)) (d : Yaml) (k v : String)
      (post : List (String × String)) (e : PyErr) (cs : List Change),
      (updateKeysGo d pre).2 = .ok cs →
      updateOnePair (updateKeysGo d pre).1 k v = .error e →
      updateKeysGo d (pre ++ (k, v) :: post) = ((updateKeysGo d pre).1, .error e)
  | [], d, k, v, post, e, cs, _, h2 => by
    simp only [updateKeysGo] at h2 ⊢
    rw [h2]
  | (k0, v0) :: pre, d, k, v, post, e, cs, h1, h2 => by
    cases h0 : updateOnePair d k0 v0 with
    | error e0 => simp [updateKeysGo, h0] at h1
    | ok r =>
      obtain ⟨d', c?⟩ := r
      cases c? with
      | none =>
        have h1' : (updateKeysGo d' pre).2 = .ok cs := by
          simpa [updateKeysGo, h0] using h1
        have h2' : updateOnePair (updateKeysGo d' pre).1 k v = .error e := by
          simpa [updateKeysGo, h0] using h2
        have ih := updateKeysGoAppendError pre d' k v post e cs h1' h2'
        simp [updateKeysGo, List.cons_append, h0, ih]
      | some c =>
        cases hg : updateKeysGo d' pre with
        | mk d₁ res =>
          cases res with
          | error e1 => simp [updateKeysGo, h0, hg] at h1
          | ok cs1 =>
            have h2' : updateOnePair d₁ k v = .error e := by
              simpa [updateKeysGo, h0, hg] using h2
            have ih := updateKeysGoAppendError pre d' k v post e cs1 (by rw [hg])
              (by rw [hg]; exact h2')
            rw [hg] at ih
            simp [updateKeysGo, List.cons_append, h0, hg, ih]

/-! ## Claim theorems -/

/-- C2: `_coerce_value` returns the new text unchanged when the existing
value is null or a string; for a boolean existing value it returns the
boolean "lowercase-trimmed new text ∈ {true, yes, 1}"; for an integer
(resp. float) existing value it returns the integer (resp. float) parse of
the new text, falling back to the new text as a string when the parse
fails; in particular existing integer 3 with `"5"` yields integer 5 and
with `"abc"` yields the string `"abc"`. -/
theorem claim_C2_coerce_value :
    (∀ v, coerceValue v .null = .str v) ∧
    (∀ v s, coerceValue v (.str s) = .str v) ∧
    (∀ v b,
      coerceValue v (.bool b)
          = .bool (pyLower (pyStripStr v) == "true" || pyLower (pyStripStr v) == "yes"
              || pyLower (pyStripStr v) == "1") ∧
      (coerceValue v (.bool b) = .bool true ↔
        pyLower (pyStripStr v) ∈ (["true", "yes", "1"] : List String))) ∧
    (∀ v n m, pyParseInt v = some m → coerceValue v (.int n) = .int m) ∧
    (∀ v n, pyParseInt v = none → coerceValue v (.int n) = .str v) ∧
    (∀ v q r, pyParseFloat v = some r → coerceValue v (.float q) = .float r) ∧
    (∀ v q, pyParseFloat v = none → coerceValue v (.float q) = .str v) ∧
    coerceValue "5" (.int 3) = .int 5 ∧
    coerceValue "abc" (.int 3) = .str "abc" := by
  refine ⟨fun v => rfl, fun v s => rfl, fun v b => ⟨rfl, ?_⟩,
    fun v n m h => ?_, fun v n h => ?_, fun v q r h => ?_, fun v q h => ?_, rfl, rfl⟩
  · simp [coerceValue, or_assoc]
  · simp [coerceValue, h]
  · simp [coerceValue, h]
  · simp [coerceValue, h]
  · simp [coerceValue, h]

/-- Witness for C2: the parse-dependent rows applied at concrete inputs. -/
theorem claim_C2_coerce_value_witness :
    coerceValue "7" (.int 0) = .int 7 ∧
    coerceValue "x7" (.int 0) = .str "x7" ∧
    coerceValue "x7" (.float 1) = .str "x7" :=
  ⟨claim_C2_coerce_value.2.2.2.1 "7" 0 7 rfl,
   claim_C2_coerce_value.2.2.2.2.1 "x7" 0 rfl,
   claim_C2_coerce_value.2.2.2.2.2.2.1 "x7" 1 rfl⟩

/-- C3: the image match fires exactly when the `repository`/`name` string
equals the image name or ends with `"/"` followed by it
(`ghcr.io/org/webapp` matches `webapp`, `ghcr.io/org/otherapp` does not);
the Helm (`repository`+`tag`) and Kustomize (`name`+`newTag`) patterns are
checked independently — both shapes in one document, and both patterns on
one node, are each updated and recorded in a single call. -/
theorem claim_C3_image_tags :
    (∀ s n, matchesImage s n = true ↔ (pyEndsWith s ("/" ++ n) = true ∨ s = n)) ∧
    matchesImage "ghcr.io/org/webapp" "webapp" = true ∧
    matchesImage "webapp" "webapp" = true ∧
    matchesImage "ghcr.io/org/otherapp" "webapp" = false ∧
    updateImageTags
        (.map [("image", .map [("repository", .str "ghcr.io/org/webapp"), ("tag", .str "v1")]),
               ("images", .seq [.map [("name", .str "ghcr.io/org/webapp"), ("newTag", .str "v1")]])])
        "webapp" "v2"
      = (.map [("image", .map [("repository", .str "ghcr.io/org/webapp"), ("tag", .str "v2")]),
               ("images", .seq [.map [("name", .str "ghcr.io/org/webapp"), ("newTag", .str "v2")]])],
         [⟨"image.tag", .str "v1", .str "v2"⟩, ⟨"images.0.newTag", .str "v1", .str "v2"⟩]) ∧
    updateImageTags
        (.map [("repository", .str "webapp"), ("tag", .str "v1"),
               ("name", .str "webapp"), ("newTag", .str "v1")]) "webapp" "v2"
      = (.map [("repository", .str "webapp"), ("tag", .str "v2"),
               ("name", .str "webapp"), ("newTag", .str "v2")],
         [⟨"tag", .str "v1", .str "v2"⟩, ⟨"newTag", .str "v1", .str "v2"⟩]) := by
  refine ⟨fun s n => ?_, rfl, rfl, rfl, rfl, rfl⟩
  simp [matchesImage]

/-- C8: `load_yaml` does wrap ruamel's `None` result for an empty or
all-comment file (a sentinel distinct from any mapping) inside the returned
3-tuple, but the caller binds the whole tuple and tests `data is None` on
it, which is false for every input — so the skip branch can never run.  The
repository's own tests call `load_yaml` expecting the document itself, which
is what the `None` check in `main` assumes. -/
theorem claim_C8_skip_never_fires :
    (∀ content,
      loadYaml none content
        = .vTuple3 .vNone
            (.vCfg (detectIndentation content).1 (detectIndentation content).2.1
              (detectIndentation content).2.2)
            (.vStr content)) ∧
    (∀ parsed content, mainSkipsFile parsed content = false) := by
  refine ⟨fun content => rfl, fun parsed content => ?_⟩
  cases parsed <;> rfl

/-- C10: `update_keys` silently processes only the first
`min(len(keys), len(values))` pairs — the result is unchanged by truncating
both lists to that length, surplus keys or values on either side are
ignored, and no error arises from the mismatch itself. -/
theorem claim_C10_zip_truncation :
    (∀ d (ks vs : List String),
      updateKeys d ks vs
        = updateKeys d (ks.take (min ks.length vs.length))
            (vs.take (min ks.length vs.length))) ∧
    (∀ d ks, updateKeys d ks [] = (d, .ok [])) ∧
    (∀ d vs, updateKeys d [] vs = (d, .ok [])) ∧
    updateKeys (.map [("x", .int 1)]) ["x", "ghost"] ["2"]
      = (.map [("x", .int 2)], .ok [⟨"x", .int 1, .int 2⟩]) := by
  refine ⟨fun d ks vs => ?_, fun d ks => ?_, fun d vs => ?_, rfl⟩
  · unfold updateKeys
    rw [zipTakeEq, ← List.length_zip, List.take_length]
  · simp [updateKeys, updateKeysGo]
  · simp [updateKeys, updateKeysGo]

/-- C5: when the key path resolves and the coerced new value is Python-equal
to the existing value, `update_keys` on that single pair returns an empty
change list and leaves the document value untouched (so re-serializing it —
a function of the unchanged document and serializer — reproduces the same
bytes); a change is recorded and applied exactly when the old value differs
from the coerced one. -/
theorem claim_C5_noop :
    ∀ d p v route parent fk old,
      resolveKeyPath d p = .ok (route, parent, fk) →
      readFinal parent fk = .ok old →
      (pyEq old (coerceValue v old) = true →
        updateKeys d [p] [v] = (d, .ok [])) ∧
      (pyEq old (coerceValue v old) = false →
        updateKeys d [p] [v]
          = (setAt d route fk (coerceValue v old),
             .ok [⟨p, old, coerceValue v old⟩])) := by
  intro d p v route parent fk old h1 h2
  constructor
  · intro h3
    simp [updateKeys, updateKeysGo, updateOnePair, h1, h2, h3]
  · intro h3
    simp [updateKeys, updateKeysGo, updateOnePair, h1, h2, h3]

/-- Witness for C5: a no-op pair on `{key: same}` returns no change and the
identical document. -/
theorem claim_C5_noop_witness :
    updateKeys (.map [("key", .str "same")]) ["key"] ["same"]
      = (.map [("key", .str "same")], .ok []) :=
  (claim_C5_noop (.map [("key", .str "same")]) "key" "same" []
      (.map [("key", .str "same")]) (.inl "key") (.str "same") rfl rfl).1 rfl

/-- C4: when the `i`-th pair of a batch raises, `update_keys` stops there
and the document keeps exactly the mutations of the pairs before it — the
final state is the state after processing the first `i` pairs, with no
rollback. -/
theorem claim_C4_partial_mutation :
    ∀ d (ks vs : List String) (i : Nat) (k v : String) (e : PyErr) (cs : List Change),
      (ks.zip vs)[i]? = some (k, v) →
      (updateKeys d (ks.take i) (vs.take i)).2 = .ok cs →
      updateOnePair (updateKeys d (ks.take i) (vs.take i)).1 k v = .error e →
      updateKeys d ks vs = ((updateKeys d (ks.take i) (vs.take i)).1, .error e) := by
  intro d ks vs i k v e cs hi h1 h2
  obtain ⟨hlt, helem⟩ := List.getElem?_eq_some.mp hi
  have hsplit : ks.zip vs = (ks.zip vs).take i ++ (k, v) :: (ks.zip vs).drop (i + 1) := by
    conv_lhs => rw [← List.take_append_drop i (ks.zip vs)]
    rw [List.drop_eq_getElem_cons hlt, helem]
  have hz : (ks.take i).zip (vs.take i) = (ks.zip vs).take i := zipTakeEq ks vs i
  unfold updateKeys at h1 h2 ⊢
  rw [hz] at h1 h2 ⊢
  conv_lhs => rw [hsplit]
  exact updateKeysGoAppendError _ d k v _ e cs h1 h2

/-- Witness for C4: pair 0 updates `a` from 1 to 5, pair 1 raises on a
missing key; the returned document keeps the applied first update. -/
theorem claim_C4_partial_mutation_witness :
    updateKeys (.map [("a", .int 1), ("b", .int 2)]) ["a", "missing"] ["5", "9"]
      = (.map [("a", .int 5), ("b", .int 2)], .error (.keyError "'missing'")) :=
  claim_C4_partial_mutation (.map [("a", .int 1), ("b", .int 2)]) ["a", "missing"]
    ["5", "9"] 1 "missing" "9" (.keyError "'missing'") [⟨"a", .int 1, .int 5⟩] rfl rfl rfl

/-- A message names the path when it ends with `in path '<path>'`. -/
def namesPath (m p : String) : Prop :=
  ∃ pre, m = pre ++ "in path '" ++ p ++ "'"

/-- The missing-key message names the path. -/
theorem msgNotFoundNames (part p : String) : namesPath (msgNotFound part p) p :=
  ⟨"Key '" ++ part ++ "' not found ", by simp only [msgNotFound, String.append_assoc]⟩

/-- The integer-index message names the path. -/
theorem msgBadIndexNames (part p : String) : namesPath (msgBadIndex part p) p :=
  ⟨"Expected integer index for list, got '" ++ part ++ "' ",
   by simp only [msgBadIndex, String.append_assoc]⟩

/-- `pyListGet` can only raise `IndexError`. -/
theorem pyListGetError (items : List Yaml) (i : Int) (e : PyErr)
    (h : pyListGet items i = .error e) : e = .indexError := by
  unfold pyListGet at h
  cases h' : pyListIdx items.length i with
  | none => simp only [h', Except.error.injEq] at h; exact h.symm
  | some j =>
    simp only [h'] at h
    cases h2 : items[j]? with
    | some x => simp [h2] at h
    | none => simp only [h2, Except.error.injEq] at h; exact h.symm

/-- Every `KeyError` raised inside the segment walk carries a message that
names the full key path. -/
theorem walkPartsKeyError :
    ∀ (parts : List String) (cur : Yaml) (p m : String),
      walkParts p cur parts = .error (.keyError m) → namesPath m p
  | [], cur, p, m => by intro h; simp [walkParts] at h
  | part :: rest, cur, p, m => by
    intro h
    cases cur with
    | seq items =>
      simp only [walkParts] at h
      cases hp : pyParseInt part with
      | none =>
        simp only [hp, Except.error.injEq, PyErr.keyError.injEq] at h
        exact h ▸ msgBadIndexNames part p
      | some i =>
        simp only [hp] at h
        cases hg : pyListGet items i with
        | error e =>
          have he := pyListGetError items i e hg
          subst he
          simp [hg] at h
        | ok ji =>
          obtain ⟨j, x⟩ := ji
          simp only [hg] at h
          cases hw : walkParts p x rest with
          | error e =>
            simp only [hw, Except.error.injEq] at h
            subst h
            exact walkPartsKeyError rest x p m hw
          | ok rp => simp [hw] at h
    | map es =>
      simp only [walkParts] at h
      cases hl : lookupStr part es with
      | none =>
        simp only [hl, Except.error.injEq, PyErr.keyError.injEq] at h
        exact h ▸ msgNotFoundNames part p
      | some v =>
        simp only [hl] at h
        cases hw : walkParts p v rest with
        | error e =>
          simp only [hw, Except.error.injEq] at h
          subst h
          exact walkPartsKeyError rest v p m hw
        | ok rp => simp [hw] at h
    | str s =>
      simp only [walkParts] at h
      cases hin : pyInStr part s with
      | true => simp [hin] at h
      | false =>
        simp only [hin, Bool.false_eq_true, if_false, Except.error.injEq,
          PyErr.keyError.injEq] at h
        exact h ▸ msgNotFoundNames part p
    | int n => simp [walkParts] at h
    | float q => simp [walkParts] at h
    | bool b => simp [walkParts] at h
    | null => simp [walkParts] at h

/-- Every `KeyError` raised by `_resolve_key_path` names the full key
path. -/
theorem resolveKeyErrorNamesPath (d : Yaml) (p m : String)
    (h : resolveKeyPath d p = .error (.keyError m)) : namesPath m p := by
  simp only [resolveKeyPath] at h
  cases hw : walkParts p d (splitPath p).dropLast with
  | error e =>
    simp only [hw, Except.error.injEq] at h
    subst h
    exact walkPartsKeyError _ d p m hw
  | ok rc =>
    obtain ⟨route, cur⟩ := rc
    simp only [hw] at h
    cases cur with
    | seq items =>
      cases hp : pyParseInt ((splitPath p).getLast?.getD "") with
      | some i => simp [hp] at h
      | none =>
        simp only [hp, Except.error.injEq, PyErr.keyError.injEq] at h
        exact h ▸ msgBadIndexNames _ p
    | map es => simp at h
    | str s => simp at h
    | int n => simp at h
    | float q => simp at h
    | bool b => simp at h
    | null => simp at h

/-- C1 counterexample: the claim says any sequence segment that is not a
*non-negative* decimal integer — negative ones included — fails; but
`int(part)` accepts a sign, so the segment `-1` resolves (indexing from the
end, Python style) and the call succeeds with no error. -/
theorem claim_C1_counterexample :
    updateKeys (.map [("items", .seq [.str "a", .str "b"])]) ["items.-1"] ["x"]
      = (.map [("items", .seq [.str "a", .str "x"])],
         .ok [⟨"items.-1", .str "b", .str "x"⟩]) := rfl

/-- C1 amended: a resolution failure — a missing intermediate mapping key,
or a sequence segment that does not parse as a (possibly signed) Python
integer — aborts the call, surfacing a `KeyError` whose message names the
offending path (negative segments do resolve, indexing from the end).  A
missing *final* mapping key also aborts the call, but its `KeyError` names
only that key, not the path. -/
theorem claim_C1_amended :
    (∀ d p v e, resolveKeyPath d p = .error e →
      updateKeys d [p] [v] = (d, .error e)) ∧
    (∀ d p m, resolveKeyPath d p = .error (.keyError m) →
      ∃ pre, m = pre ++ "in path '" ++ p ++ "'") ∧
    updateKeys (.map [("xs", .seq [.str "p", .str "q", .str "r"])]) ["xs.-2"] ["z"]
      = (.map [("xs", .seq [.str "p", .str "z", .str "r"])],
         .ok [⟨"xs.-2", .str "q", .str "z"⟩]) ∧
    updateKeys (.map [("a", .map [("x", .int 1)])]) ["a.b"] ["v"]
      = (.map [("a", .map [("x", .int 1)])], .error (.keyError "'b'")) := by
  refine ⟨fun d p v e h => ?_, fun d p m h => resolveKeyErrorNamesPath d p m h, rfl, rfl⟩
  simp [updateKeys, updateKeysGo, updateOnePair, h]

/-- Witness for C1 (amended): a missing intermediate key aborts a one-pair
call with the path-naming message and the document returned unchanged. -/
theorem claim_C1_amended_witness :
    updateKeys (.map [("k", .int 1)]) ["missing.path"] ["v"]
      = (.map [("k", .int 1)],
         .error (.keyError "Key 'missing' not found in path 'missing.path'")) :=
  claim_C1_amended.1 (.map [("k", .int 1)]) "missing.path" "v"
    (.keyError "Key 'missing' not found in path 'missing.path'") rfl

/-- C7 counterexample: on a file whose first nested key (`  b: 1`) sits two
columns inside its parent while a later nested key (`    d: 2`) sits four
columns inside its parent, the spec's "first nested key occurrence" rule
gives mapping indent 2, but `_detect_indentation` returns 4 — the detected
width comes from the last qualifying occurrence, not the first. -/
theorem claim_C7_counterexample :
    specDetectIndentation "a:\n  b: 1\nc:\n    d: 2\n" = (2, 4, 2) ∧
    detectIndentation "a:\n  b: 1\nc:\n    d: 2\n" = (4, 6, 4) ∧
    ¬ detectIndentation "a:\n  b: 1\nc:\n    d: 2\n"
        = specDetectIndentation "a:\n  b: 1\nc:\n    d: 2\n" :=
  ⟨rfl, rfl, by decide⟩

/-- C7 amended: detection scans every line; a key line contributes the
indent delta to its *immediately preceding* non-blank, non-comment line
when that line is a key line (not a sequence item) of strictly smaller
indent, and the mapping indent is the *last* such contribution (2 when
there is none); the sequence indent is the mapping indent + 2 and the
offset equals the mapping indent. -/
theorem claim_C7_amended :
    (∀ lines, detectMappingIndent lines
        = (((List.range lines.length).filterMap (contribution lines)).getLast?).getD 2) ∧
    (∀ content, detectIndentation content
        = (detectMappingIndent (pySplitlines content),
           detectMappingIndent (pySplitlines content) + 2,
           detectMappingIndent (pySplitlines content))) ∧
    detectIndentation "a:\n  b: 1\nc:\n    d: 2\n" = (4, 6, 4) ∧
    detectIndentation "a:\n  b: 1\n" = (2, 4, 2) ∧
    detectIndentation "a: 1\n" = (2, 4, 2) :=
  ⟨fun lines => foldlGetDEqGetLast (contribution lines) (List.range lines.length) 2,
   fun _ => rfl, rfl, rfl, rfl⟩

/-- C9 counterexample: the body filter `not group.startswith(("---", "+++"))`
also discards *diff body* lines that begin with `---` or `+++`.  Replacing
the line `-- a` by `-- b` renders the removed line as `--- a`, which the
filter drops: the removed line appears nowhere in the returned diff,
refuting "every added or removed line of the text appears in the diff
body". -/
theorem claim_C9_counterexample :
    diffYaml "f" "-- a\n" "-- b\n" = "--- f\n+++ f\n@@ -1 +1 @@\n+-- b" ∧
    (pySplitlines (diffYaml "f" "-- a\n" "-- b\n")).contains "--- a" = false ∧
    pyInStr "-- a" (diffYaml "f" "-- a\n" "-- b\n") = false :=
  ⟨rfl, rfl, rfl⟩

/-- C9 amended: `diff_yaml` returns the empty string exactly when the
serialization equals the original text; otherwise the result is the two
`---`/`+++` header lines carrying the file path followed by the 3-context
unified-diff lines — except that any diff line beginning with `---` or
`+++` (in particular a removed line starting `--` or an added line starting
`++`) is filtered out of the body together with difflib's own header
lines. -/
theorem claim_C9_amended :
    (∀ path orig new, diffYaml path orig new = "" ↔ orig = new) ∧
    (∀ path orig new, ¬ orig = new →
      ∃ body, diffYaml path orig new
          = joinWith "\n" (("--- " ++ path) :: ("+++ " ++ path) :: body)) ∧
    (∀ orig new l,
      l ∈ (unifiedDiff (pySplitlines orig) (pySplitlines new) 3).filter
          (fun g => !(pyStartsWith g "---" || pyStartsWith g "+++")) →
      pyStartsWith l "---" = false ∧ pyStartsWith l "+++" = false) ∧
    diffYaml "g" "x\n" "++ y\n" = "--- g\n+++ g\n@@ -1 +1 @@\n-x" := by
  refine ⟨fun path orig new => ?_, fun path orig new hne => ?_, fun orig new l hl => ?_, rfl⟩
  · constructor
    · intro h
      by_contra hne
      rw [diffYaml, if_neg (by simpa using hne)] at h
      obtain ⟨t, ht⟩ := joinWithPre "\n"
        ((("+++ " ++ path)) ::
          (unifiedDiff (pySplitlines orig) (pySplitlines new) 3).filter
            (fun g => !(pyStartsWith g "---" || pyStartsWith g "+++")))
        ("--- " ++ path)
      rw [ht] at h
      have hlen := congrArg String.length h
      simp [String.length_append] at hlen
      exact absurd hlen.1.1 (by decide)
    · intro h
      subst h
      simp [diffYaml]
  · rw [diffYaml, if_neg (by simpa using hne)]
    exact ⟨_, rfl⟩
  · have := (List.mem_filter.mp hl).2
    constructor
    · cases hs : pyStartsWith l "---" <;> simp [hs] at this ⊢
    · cases hs : pyStartsWith l "+++" <;> simp [hs] at this ⊢

/-- Witness for C9 (amended): a surviving body line of a concrete diff does
not start with `---` or `+++`. -/
theorem claim_C9_amended_witness :
    pyStartsWith "-x" "---" = false ∧ pyStartsWith "-x" "+++" = false :=
  claim_C9_amended.2.2.1 "x\n" "++ y\n" "-x" (by decide)

end YamlUpdate
